import Mathlib

/-!
Verification development for the WhatsApp multi-session bot server
(`src/server.js`): a shallow embedding of the per-session sliding-window
rate limiter, the single-send endpoint, the bulk-send loop with its
skip/retry/failure accounting, and the connection-close teardown handler,
together with theorems settling the specification's claims about them.

Timestamps are modelled as `Int` (JavaScript `Date.now()` values and their
differences are exact integers). Collaborator calls on the protocol handle
(`onWhatsApp`, `sendMessage`) are modelled by outcome oracles supplied as
arguments; side effects that matter to the claims (timestamp pushes,
existence queries, send attempts, `delay` sleeps) are recorded as explicit
event lists.
-/

/-- `MESSAGE_LIMIT` from server.js: max sends per window. -/
def MESSAGE_LIMIT : Nat := 10

/-- `TIME_WINDOW` from server.js: 10 minutes in milliseconds. -/
def TIME_WINDOW : Int := 10 * 60 * 1000

/-- `Math.ceil(x / 1000)` on an exact integer `x`. -/
def ceilDiv1000 (x : Int) : Int := Int.ediv (x + 999) 1000

/-- The pruning pass of the rate-limit logic (server.js line 145):
`messageTracker[sessionId].filter(ts => now - ts < TIME_WINDOW)`. -/
def pruneWindow (now : Int) (w : List Int) : List Int :=
  w.filter (fun ts => decide (now - ts < TIME_WINDOW))

/-- Outcome of one rate-limit admission check. -/
inductive AdmitDecision where
  | admitted : AdmitDecision
  | rejected (retryAfterSeconds : Int) : AdmitDecision
deriving DecidableEq, Repr

/-- The rate-limit admission logic of the `/send/:sessionId` handler
(server.js lines 141-156), factored out as the spec's `tryAdmit`: prune the
window, reject with `Math.ceil((TIME_WINDOW - (now - window[0])) / 1000)`
when `window.length >= MESSAGE_LIMIT`, otherwise push `now` and admit.
Returns the updated stored window together with the decision. -/
def tryAdmission (w : List Int) (now : Int) : List Int × AdmitDecision :=
  let pruned := pruneWindow now w
  if MESSAGE_LIMIT ≤ pruned.length then
    (pruned, AdmitDecision.rejected (ceilDiv1000 (TIME_WINDOW - (now - pruned.headI))))
  else
    (pruned ++ [now], AdmitDecision.admitted)

/-- Admission check as claim C1 words it literally: the prune step removes
only timestamps strictly older than `now - windowDuration` (keeping a
timestamp that is exactly `windowDuration` old); then admit when the pruned
length is strictly below the limit, else reject with the ceiling formula. -/
def tryAdmissionClaimC1 (w : List Int) (now : Int) : List Int × AdmitDecision :=
  let pruned := w.filter (fun ts => decide (now - TIME_WINDOW ≤ ts))
  if pruned.length < MESSAGE_LIMIT then
    (pruned ++ [now], AdmitDecision.admitted)
  else
    (pruned, AdmitDecision.rejected (ceilDiv1000 (TIME_WINDOW - (now - pruned.headI))))

/-- Admission check as claim C1 amended: the prune step removes every
timestamp at least `windowDuration` old, i.e. every `ts ≤ now - windowDuration`
(so the timestamp exactly `windowDuration` old is also removed); the rest of
the claim is unchanged. -/
def tryAdmissionAmendedC1 (w : List Int) (now : Int) : List Int × AdmitDecision :=
  let pruned := w.filter (fun ts => !(decide (ts ≤ now - TIME_WINDOW)))
  if pruned.length < MESSAGE_LIMIT then
    (pruned ++ [now], AdmitDecision.admitted)
  else
    (pruned, AdmitDecision.rejected (ceilDiv1000 (TIME_WINDOW - (now - pruned.headI))))

/-- A run of admission checks against one session id, starting from window
`w`, accumulating in `acc` the timestamps of the admitted checks. Each call
stores the updated window exactly as the handler stores
`messageTracker[sessionId]`. -/
def runCalls (w acc : List Int) : List Int → List Int × List Int
  | [] => (w, acc)
  | t :: ts =>
    match tryAdmission w t with
    | (w', AdmitDecision.admitted) => runCalls w' (acc ++ [t]) ts
    | (w', AdmitDecision.rejected _) => runCalls w' acc ts

/-- Membership of a timestamp in the trailing window ending at time `T`. -/
def inTrailing (T : Int) (x : Int) : Bool :=
  decide (T - x < TIME_WINDOW) && decide (x ≤ T)

/-- `pat` is a prefix of the character list. -/
def startsWithL : List Char → List Char → Bool
  | [], _ => true
  | _ :: _, [] => false
  | a :: as, b :: bs => a == b && startsWithL as bs

/-- `pat` occurs as a contiguous subsequence of the character list. -/
def containsSeq (pat : List Char) : List Char → Bool
  | [] => startsWithL pat []
  | c :: rest => startsWithL pat (c :: rest) || containsSeq pat rest

/-- JavaScript `s.includes(pat)`: substring containment. -/
def includesSub (s pat : String) : Bool := containsSeq pat.data s.data

/-- `number.includes('@s.whatsapp.net') ? number : number + '@s.whatsapp.net'`
(server.js lines 159 and 221). -/
def toJid (number : String) : String :=
  if includesSub number "@s.whatsapp.net" then number
  else number ++ "@s.whatsapp.net"

/-- Oracle for one `sock.onWhatsApp(jid)` call: the number exists, it does
not exist (empty result or `exists: false`), or the call throws. -/
inductive ExistsOutcome where
  | found : ExistsOutcome
  | notFound : ExistsOutcome
  | errored (msg : String) : ExistsOutcome
deriving DecidableEq, Repr

/-- Oracle for one `sock.sendMessage(...)` call: it resolves or it throws. -/
inductive SendOutcome where
  | delivered : SendOutcome
  | errored (msg : String) : SendOutcome
deriving DecidableEq, Repr

/-- Observable effects of the send paths: the admission timestamp being
pushed into the rate window, an existence query, a send attempt, and a
`delay(ms)` sleep. -/
inductive SendEv where
  | pushTimestamp (ts : Int) : SendEv
  | queryExists (jid : String) : SendEv
  | attemptSend (jid : String) : SendEv
deriving DecidableEq, Repr

/-- HTTP-level outcome of the `/send/:sessionId` handler. -/
inductive SendResponse where
  | sessionNotConnected : SendResponse
  | rateLimited (retryAfterSeconds : Int) : SendResponse
  | recipientNotFound : SendResponse
  | serverError (msg : String) : SendResponse
  | messageSent : SendResponse
deriving DecidableEq, Repr

/-- Collaborator oracles that one `/send` request consumes. The three
payload forms (uploaded file, remote URL, plain text) all reduce to one
send attempt whose outcome `sendRes` covers; a failing remote fetch is an
`errored` outcome as well, since the whole block shares one `catch`. -/
structure SendEnv where
  onWhatsApp : ExistsOutcome
  sendRes : SendOutcome
deriving DecidableEq, Repr

/-- The `/send/:sessionId` handler (server.js lines 132-193): session
check, rate-limit admission (which stores the pruned window and, on
admission, pushes `now`), recipient-existence query, then the send; errors
from the `try` block become a 500 response. Returns the response, the
stored window after the request, and the ordered effect events. -/
def sendEndpoint (connected : Bool) (w : List Int) (now : Int) (number : String)
    (env : SendEnv) : SendResponse × List Int × List SendEv :=
  if connected = false then (SendResponse.sessionNotConnected, w, [])
  else
    match tryAdmission w now with
    | (w', AdmitDecision.rejected r) => (SendResponse.rateLimited r, w', [])
    | (w', AdmitDecision.admitted) =>
      let jid := toJid number
      match env.onWhatsApp with
      | ExistsOutcome.errored m =>
        (SendResponse.serverError m, w', [SendEv.pushTimestamp now, SendEv.queryExists jid])
      | ExistsOutcome.notFound =>
        (SendResponse.recipientNotFound, w', [SendEv.pushTimestamp now, SendEv.queryExists jid])
      | ExistsOutcome.found =>
        match env.sendRes with
        | SendOutcome.delivered =>
          (SendResponse.messageSent, w',
            [SendEv.pushTimestamp now, SendEv.queryExists jid, SendEv.attemptSend jid])
        | SendOutcome.errored m =>
          (SendResponse.serverError m, w',
            [SendEv.pushTimestamp now, SendEv.queryExists jid, SendEv.attemptSend jid])

/-- Collaborator oracles one bulk recipient consumes: the existence query
outcome, the first send outcome, and the retry send outcome (consulted only
when the first send fails and `retryFailed` is set). -/
structure RecipientEnv where
  onWhatsApp : ExistsOutcome
  firstSend : SendOutcome
  retrySend : SendOutcome
deriving DecidableEq, Repr

/-- Observable effects of the bulk loop. -/
inductive BulkEv where
  | queryExists (jid : String) : BulkEv
  | attemptSend (jid : String) : BulkEv
  | wait (ms : Nat) : BulkEv
deriving DecidableEq, Repr

/-- One row of the bulk report: `{number, status, reason?}`. -/
structure Entry where
  number : String
  status : String
  reason : Option String
deriving DecidableEq, Repr

/-- Which of the three counters the handled recipient's branch increments. -/
inductive CounterKind where
  | success : CounterKind
  | fail : CounterKind
  | skipped : CounterKind
deriving DecidableEq, Repr

def isWaitEv : BulkEv → Bool
  | BulkEv.wait _ => true
  | _ => false

def isAttemptEv : BulkEv → Bool
  | BulkEv.attemptSend _ => true
  | _ => false

/-- The body of the bulk loop for one recipient (server.js lines 219-266):
existence query (`skipped` on non-existence, with `continue` jumping past
the trailing `delay(500)`); send attempt; on failure either record `failed`
or, when `retryFailed`, `delay(2000)` and retry exactly once; a throwing
existence query is caught by the outer `catch` and recorded `failed`. All
non-`continue` paths fall through to the trailing `delay(500)`. -/
def processRecipient (retryFailed : Bool) (number : String) (env : RecipientEnv) :
    Entry × CounterKind × List BulkEv :=
  let jid := toJid number
  match env.onWhatsApp with
  | ExistsOutcome.errored m =>
    (⟨number, "failed", some m⟩, CounterKind.fail,
      [BulkEv.queryExists jid, BulkEv.wait 500])
  | ExistsOutcome.notFound =>
    (⟨number, "skipped", some "Not registered on WhatsApp"⟩, CounterKind.skipped,
      [BulkEv.queryExists jid])
  | ExistsOutcome.found =>
    match env.firstSend with
    | SendOutcome.delivered =>
      (⟨number, "sent", none⟩, CounterKind.success,
        [BulkEv.queryExists jid, BulkEv.attemptSend jid, BulkEv.wait 500])
    | SendOutcome.errored m =>
      if retryFailed then
        match env.retrySend with
        | SendOutcome.delivered =>
          (⟨number, "sent (retry)", none⟩, CounterKind.success,
            [BulkEv.queryExists jid, BulkEv.attemptSend jid, BulkEv.wait 2000,
              BulkEv.attemptSend jid, BulkEv.wait 500])
        | SendOutcome.errored m2 =>
          (⟨number, "failed", some ("Retry failed: " ++ m2)⟩, CounterKind.fail,
            [BulkEv.queryExists jid, BulkEv.attemptSend jid, BulkEv.wait 2000,
              BulkEv.attemptSend jid, BulkEv.wait 500])
      else
        (⟨number, "failed", some m⟩, CounterKind.fail,
          [BulkEv.queryExists jid, BulkEv.attemptSend jid, BulkEv.wait 500])

/-- Mutable state of one bulk job: the report array and the three tallies. -/
structure BulkState where
  report : List Entry
  successCount : Nat
  failCount : Nat
  skippedCount : Nat
deriving DecidableEq, Repr

/-- `report.push(entry)` together with the branch's counter increment. -/
def applyCounter (st : BulkState) (e : Entry) (c : CounterKind) : BulkState :=
  match c with
  | CounterKind.success =>
    { st with report := st.report ++ [e], successCount := st.successCount + 1 }
  | CounterKind.fail =>
    { st with report := st.report ++ [e], failCount := st.failCount + 1 }
  | CounterKind.skipped =>
    { st with report := st.report ++ [e], skippedCount := st.skippedCount + 1 }

/-- The bulk loop over the remaining recipients, from state `st`, also
collecting the ordered effect events. -/
def bulkRun (retryFailed : Bool) (st : BulkState) :
    List (String × RecipientEnv) → BulkState × List BulkEv
  | [] => (st, [])
  | (n, env) :: rest =>
    match processRecipient retryFailed n env with
    | (e, c, evs) =>
      match bulkRun retryFailed (applyCounter st e c) rest with
      | (st', evs') => (st', evs ++ evs')

/-- Failure responses of the `/send-bulk/:sessionId` handler. -/
inductive BulkError where
  | invalidRequest : BulkError
  | sessionNotConnected : BulkError
deriving DecidableEq, Repr

/-- The summary object of the bulk response. -/
structure BulkSummary where
  total : Nat
  processed : Nat
  sent : Nat
  failed : Nat
  skipped : Nat
deriving DecidableEq, Repr

/-- The 200 response body of the bulk handler. -/
structure BulkResponse where
  summary : BulkSummary
  report : List Entry
deriving DecidableEq, Repr

/-- The `/send-bulk/:sessionId` handler (server.js lines 195-281):
validation of `numbers`/`message`, the connected-session check, the
sequential loop, then the summary with
`processed = successCount + failCount + skippedCount`. -/
def sendBulkEndpoint (connected : Bool) (numbers : List (String × RecipientEnv))
    (message : String) (retryFailed : Bool) : Except BulkError BulkResponse :=
  if numbers.length = 0 ∨ message = "" then Except.error BulkError.invalidRequest
  else if connected = false then Except.error BulkError.sessionNotConnected
  else
    match bulkRun retryFailed ⟨[], 0, 0, 0⟩ numbers with
    | (st, _) =>
      Except.ok
        ⟨⟨numbers.length, st.successCount + st.failCount + st.skippedCount,
            st.successCount, st.failCount, st.skippedCount⟩,
          st.report⟩

def isSentStatus (e : Entry) : Bool :=
  e.status == "sent" || e.status == "sent (retry)"

def isFailedStatus (e : Entry) : Bool := e.status == "failed"

def isSkippedStatus (e : Entry) : Bool := e.status == "skipped"

def isAttemptSendEv : SendEv → Bool
  | SendEv.attemptSend _ => true
  | _ => false

/-- The per-id state the server keeps outside a request: the `sessions`
registry, the `messageTracker` rate-window registry, and the on-disk
artifacts (`auth/<id>` credential directory, `qr_codes/<id>.png`). -/
structure ServerState where
  sessions : String → Bool
  messageTracker : String → Option (List Int)
  authDirExists : String → Bool
  qrFileExists : String → Bool

/-- `DisconnectReason.loggedOut` of the protocol library (compared only for
equality by the handler; its concrete value is 401). -/
def loggedOutCode : Int := 401

/-- The `connection === 'close'` branch of the `connection.update` observer
(server.js lines 63-94). On `loggedOut`: delete the auth directory, the QR
file, the Session record and the rate-window entry, and do not reconnect.
On any other status code: delete the QR file, the Session record and the
rate-window entry (the auth directory is kept) and re-invoke
`startSession`, reported by the returned flag. -/
def handleConnectionClose (st : ServerState) (id : String) (statusCode : Option Int) :
    ServerState × Bool :=
  if statusCode = some loggedOutCode then
    ({ sessions := fun k => if k = id then false else st.sessions k,
       messageTracker := fun k => if k = id then none else st.messageTracker k,
       authDirExists := fun k => if k = id then false else st.authDirExists k,
       qrFileExists := fun k => if k = id then false else st.qrFileExists k }, false)
  else
    ({ sessions := fun k => if k = id then false else st.sessions k,
       messageTracker := fun k => if k = id then none else st.messageTracker k,
       authDirExists := st.authDirExists,
       qrFileExists := fun k => if k = id then false else st.qrFileExists k }, true)

/-- The two predicates used by the code's prune and by the amended claim's
prune agree on every timestamp. -/
theorem prune_pred_agree (now a : Int) :
    decide (now - a < TIME_WINDOW) = !(decide (a ≤ now - TIME_WINDOW)) := by
  by_cases h : now - a < TIME_WINDOW
  · have h2 : ¬ (a ≤ now - TIME_WINDOW) := by omega
    simp [h, h2]
  · have h2 : a ≤ now - TIME_WINDOW := by omega
    simp [h, h2]

/-- Claim C1 (counterexample): on a window of ten timestamps each exactly
`windowDuration` old, the code prunes them all and admits, while the claim
as stated (prune only what is strictly older than `now - windowDuration`)
keeps all ten and rejects with `retryAfterSeconds = 0`. -/
theorem c1_boundary_counterexample :
    tryAdmission (List.replicate 10 (0 : Int)) 600000 = ([(600000 : Int)], AdmitDecision.admitted)
    ∧ tryAdmissionClaimC1 (List.replicate 10 (0 : Int)) 600000
      = (List.replicate 10 (0 : Int), AdmitDecision.rejected 0) := by
  constructor <;> decide

/-- Claim C1 (amended): the admission check first removes from the window
every timestamp at least `windowDuration` old (`ts ≤ now - windowDuration`);
then, if the pruned window's length is strictly below the limit, it appends
`now` and admits, and otherwise rejects with
`retryAfterSeconds = ceil((windowDuration - (now - oldestRemaining)) / 1000)`. -/
theorem tryAdmission_matches_amended_contract (w : List Int) (now : Int) :
    tryAdmission w now = tryAdmissionAmendedC1 w now := by
  simp only [tryAdmission, tryAdmissionAmendedC1, pruneWindow]
  have hf : w.filter (fun ts => decide (now - ts < TIME_WINDOW))
      = w.filter (fun ts => !(decide (ts ≤ now - TIME_WINDOW))) :=
    List.filter_congr (fun a _ => prune_pred_agree now a)
  rw [hf]
  rcases Nat.lt_or_ge (w.filter (fun ts => !(decide (ts ≤ now - TIME_WINDOW)))).length
      MESSAGE_LIMIT with h | h
  · rw [if_neg (by omega), if_pos h]
  · rw [if_pos h, if_neg (by omega)]

/-- Claim C2 (counterexample): in a two-recipient bulk job whose first
recipient does not exist, the recorded effects show the second recipient's
existence query immediately after the first recipient's — no pacing delay
occurs after the skip, because `continue` jumps past `delay(500)`; a lone
skipped recipient produces no delay at all. -/
theorem c2_skip_no_pacing_counterexample :
    (bulkRun false ⟨[], 0, 0, 0⟩
        [("5", ⟨ExistsOutcome.notFound, SendOutcome.delivered, SendOutcome.delivered⟩),
         ("6", ⟨ExistsOutcome.found, SendOutcome.delivered, SendOutcome.delivered⟩)]).2
      = [BulkEv.queryExists "5@s.whatsapp.net", BulkEv.queryExists "6@s.whatsapp.net",
         BulkEv.attemptSend "6@s.whatsapp.net", BulkEv.wait 500]
    ∧ ((processRecipient false "5"
        ⟨ExistsOutcome.notFound, SendOutcome.delivered, SendOutcome.delivered⟩).2.2).countP
          isWaitEv = 0 := by
  constructor <;> decide

/-- Claim C2 (amended): the fixed ≈500ms pacing delay is performed after
every recipient whose outcome is sent or failed, but a recipient skipped as
non-existent is followed by no delay at all — `continue` bypasses the
pacing, so the next recipient is processed immediately. -/
theorem pacing_follows_each_nonskipped_recipient (rf : Bool) (n : String) (env : RecipientEnv) :
    if (processRecipient rf n env).1.status = "skipped"
    then ((processRecipient rf n env).2.2).countP isWaitEv = 0
    else ((processRecipient rf n env).2.2).getLast? = some (BulkEv.wait 500) := by
  rcases env with ⟨eo, s1, s2⟩
  cases eo <;> cases s1 <;> cases s2 <;> cases rf <;>
    simp [processRecipient, isWaitEv, List.getLast?]

/-- Claim C8: on a connection-closed event whose status code is the
logged-out reason, the handler removes every piece of per-id state — the
credential directory, the QR file, the Session record and the rate-window
entry — and initiates no reconnection. -/
theorem loggedOut_close_full_teardown (st : ServerState) (id : String) :
    (handleConnectionClose st id (some loggedOutCode)).1.sessions id = false
    ∧ (handleConnectionClose st id (some loggedOutCode)).1.messageTracker id = none
    ∧ (handleConnectionClose st id (some loggedOutCode)).1.authDirExists id = false
    ∧ (handleConnectionClose st id (some loggedOutCode)).1.qrFileExists id = false
    ∧ (handleConnectionClose st id (some loggedOutCode)).2 = false := by
  simp [handleConnectionClose]

/-- When the pruned window is below the limit, the admission check stores
the pruned window with `now` appended and admits. -/
theorem tryAdmission_admitted_of_lt (w : List Int) (now : Int)
    (h : (pruneWindow now w).length < MESSAGE_LIMIT) :
    tryAdmission w now = (pruneWindow now w ++ [now], AdmitDecision.admitted) := by
  simp only [tryAdmission]
  rw [if_neg (by omega)]

/-- Claim C5: on a connected session whose admission check passes, the
existence query is made only after the admission timestamp is pushed; a
non-existent recipient yields the not-found failure, no send attempt
occurs, and the pushed timestamp stays in the stored window. -/
theorem recipient_not_found_still_consumes_slot (w : List Int) (now : Int) (number : String)
    (s : SendOutcome) (hadm : (pruneWindow now w).length < MESSAGE_LIMIT) :
    (sendEndpoint true w now number ⟨ExistsOutcome.notFound, s⟩).1
      = SendResponse.recipientNotFound
    ∧ (sendEndpoint true w now number ⟨ExistsOutcome.notFound, s⟩).2.1
      = pruneWindow now w ++ [now]
    ∧ now ∈ (sendEndpoint true w now number ⟨ExistsOutcome.notFound, s⟩).2.1
    ∧ (sendEndpoint true w now number ⟨ExistsOutcome.notFound, s⟩).2.2
      = [SendEv.pushTimestamp now, SendEv.queryExists (toJid number)]
    ∧ ((sendEndpoint true w now number ⟨ExistsOutcome.notFound, s⟩).2.2).countP
        isAttemptSendEv = 0 := by
  simp [sendEndpoint, tryAdmission_admitted_of_lt w now hadm, isAttemptSendEv]

theorem recipient_not_found_still_consumes_slot_witness :
    (sendEndpoint true [] 0 "1" ⟨ExistsOutcome.notFound, SendOutcome.delivered⟩).1
      = SendResponse.recipientNotFound
    ∧ (sendEndpoint true [] 0 "1" ⟨ExistsOutcome.notFound, SendOutcome.delivered⟩).2.1
      = pruneWindow 0 [] ++ [0]
    ∧ (0 : Int) ∈ (sendEndpoint true [] 0 "1" ⟨ExistsOutcome.notFound, SendOutcome.delivered⟩).2.1
    ∧ (sendEndpoint true [] 0 "1" ⟨ExistsOutcome.notFound, SendOutcome.delivered⟩).2.2
      = [SendEv.pushTimestamp 0, SendEv.queryExists (toJid "1")]
    ∧ ((sendEndpoint true [] 0 "1" ⟨ExistsOutcome.notFound, SendOutcome.delivered⟩).2.2).countP
        isAttemptSendEv = 0 :=
  recipient_not_found_still_consumes_slot [] 0 "1" SendOutcome.delivered (by decide)

/-- Claim C10: once admission passes, the stored window after the request
is the pruned window with `now` appended — whatever the existence query and
the send do afterwards — so the admission timestamp is never rolled back. -/
theorem admitted_timestamp_never_rolled_back (w : List Int) (now : Int) (number : String)
    (env : SendEnv) (hadm : (pruneWindow now w).length < MESSAGE_LIMIT) :
    (sendEndpoint true w now number env).2.1 = pruneWindow now w ++ [now]
    ∧ now ∈ (sendEndpoint true w now number env).2.1 := by
  rcases env with ⟨eo, sr⟩
  cases eo <;> cases sr <;>
    simp [sendEndpoint, tryAdmission_admitted_of_lt w now hadm]

theorem admitted_timestamp_never_rolled_back_witness :
    (sendEndpoint true [] 0 "1" ⟨ExistsOutcome.found, SendOutcome.errored "boom"⟩).2.1
      = pruneWindow 0 [] ++ [0]
    ∧ (0 : Int) ∈ (sendEndpoint true [] 0 "1"
        ⟨ExistsOutcome.found, SendOutcome.errored "boom"⟩).2.1 :=
  admitted_timestamp_never_rolled_back [] 0 "1"
    ⟨ExistsOutcome.found, SendOutcome.errored "boom"⟩ (by decide)

/-- Claim C6: when the first send for an existing recipient fails — with
`retryFailed` off the recipient is recorded failed with the first error's
reason; with `retryFailed` on exactly one retry follows one 2000ms backoff,
a successful retry is recorded `sent (retry)`, a failed retry is recorded
failed with the retry's reason; and no recipient path ever performs more
than two send attempts. -/
theorem bulk_retry_policy (rf : Bool) (n m m2 : String) (rs : SendOutcome) (env : RecipientEnv) :
    processRecipient false n ⟨ExistsOutcome.found, SendOutcome.errored m, rs⟩
      = (⟨n, "failed", some m⟩, CounterKind.fail,
          [BulkEv.queryExists (toJid n), BulkEv.attemptSend (toJid n), BulkEv.wait 500])
    ∧ processRecipient true n ⟨ExistsOutcome.found, SendOutcome.errored m, SendOutcome.delivered⟩
      = (⟨n, "sent (retry)", none⟩, CounterKind.success,
          [BulkEv.queryExists (toJid n), BulkEv.attemptSend (toJid n), BulkEv.wait 2000,
            BulkEv.attemptSend (toJid n), BulkEv.wait 500])
    ∧ processRecipient true n ⟨ExistsOutcome.found, SendOutcome.errored m, SendOutcome.errored m2⟩
      = (⟨n, "failed", some ("Retry failed: " ++ m2)⟩, CounterKind.fail,
          [BulkEv.queryExists (toJid n), BulkEv.attemptSend (toJid n), BulkEv.wait 2000,
            BulkEv.attemptSend (toJid n), BulkEv.wait 500])
    ∧ ((processRecipient rf n env).2.2).countP isAttemptEv ≤ 2 := by
  refine ⟨rfl, rfl, rfl, ?_⟩
  rcases env with ⟨eo, s1, s2⟩
  cases eo <;> cases s1 <;> cases s2 <;> cases rf <;>
    simp [processRecipient, isAttemptEv]

/-- Claim C9: a throwing existence query lands in the outer catch: the
recipient is recorded `failed` (not `skipped`) with the error's message,
the failed counter is incremented, and the loop continues with the
remaining recipients from that updated state. -/
theorem exists_query_error_records_failed (rf : Bool) (st : BulkState) (n m : String)
    (s1 s2 : SendOutcome) (rest : List (String × RecipientEnv)) :
    bulkRun rf st ((n, ⟨ExistsOutcome.errored m, s1, s2⟩) :: rest)
      = ((bulkRun rf
            { st with
                report := st.report ++ [⟨n, "failed", some m⟩],
                failCount := st.failCount + 1 } rest).1,
          [BulkEv.queryExists (toJid n), BulkEv.wait 500]
            ++ (bulkRun rf
              { st with
                  report := st.report ++ [⟨n, "failed", some m⟩],
                  failCount := st.failCount + 1 } rest).2) := by
  simp [bulkRun, processRecipient, applyCounter]

/-- Claim C3: a rejected admission returns a non-negative
`retryAfterSeconds`, and — with the stored window at the limit boundary and
no intervening admissions — a new check made `retryAfterSeconds` seconds
later is admitted, the oldest timestamp having aged out of the window. -/
theorem rejected_retry_then_admitted (w : List Int) (now : Int) (p : List Int) (r : Int)
    (h : tryAdmission w now = (p, AdmitDecision.rejected r))
    (hlim : p.length = MESSAGE_LIMIT) :
    0 ≤ r ∧ (tryAdmission p (now + 1000 * r)).2 = AdmitDecision.admitted := by
  have hM : MESSAGE_LIMIT = 10 := rfl
  have hTW : TIME_WINDOW = 600000 := rfl
  simp only [tryAdmission] at h
  by_cases hc : MESSAGE_LIMIT ≤ (pruneWindow now w).length
  case neg =>
    rw [if_neg hc] at h
    exact absurd (congrArg Prod.snd h) (by simp)
  rw [if_pos hc] at h
  have h1 : pruneWindow now w = p := congrArg Prod.fst h
  have h2 : ceilDiv1000 (TIME_WINDOW - (now - (pruneWindow now w).headI)) = r := by
    have := congrArg Prod.snd h
    simpa using this
  subst h1
  rcases hcons : pruneWindow now w with _ | ⟨h0, tail⟩
  · rw [hcons] at hlim
    simp [hM] at hlim
  rw [hcons] at hlim h2
  have hmem : h0 ∈ pruneWindow now w := by
    rw [hcons]
    exact List.mem_cons_self h0 tail
  have hpred : now - h0 < TIME_WINDOW := by
    simp only [pruneWindow, List.mem_filter, decide_eq_true_eq] at hmem
    exact hmem.2
  simp only [List.headI, ceilDiv1000] at h2
  have h2' : (TIME_WINDOW - (now - h0) + 999) / 1000 = r := h2
  have e1 := Int.ediv_add_emod (TIME_WINDOW - (now - h0) + 999) 1000
  have e2 := Int.emod_nonneg (TIME_WINDOW - (now - h0) + 999) (show (1000 : Int) ≠ 0 by norm_num)
  have e3 := Int.emod_lt_of_pos (TIME_WINDOW - (now - h0) + 999) (show (0 : Int) < 1000 by norm_num)
  have hr0 : 0 ≤ r := by omega
  refine ⟨hr0, ?_⟩
  have hdec : (decide (now + 1000 * r - h0 < TIME_WINDOW)) = false := by
    rw [decide_eq_false_iff_not]
    omega
  have hfe : pruneWindow (now + 1000 * r) (h0 :: tail)
      = pruneWindow (now + 1000 * r) tail := by
    simp [pruneWindow, List.filter_cons, hdec]
  have htail : tail.length = 9 := by
    simp [hM] at hlim
    omega
  have hlen : (pruneWindow (now + 1000 * r) (h0 :: tail)).length < MESSAGE_LIMIT := by
    rw [hfe]
    have := List.length_filter_le (fun ts => decide (now + 1000 * r - ts < TIME_WINDOW)) tail
    simp only [pruneWindow]
    omega
  simp only [tryAdmission]
  rw [if_neg (by omega)]

theorem rejected_retry_then_admitted_witness :
    (0 : Int) ≤ 600
    ∧ (tryAdmission (List.replicate 10 (0 : Int)) (0 + 1000 * 600)).2
      = AdmitDecision.admitted :=
  rejected_retry_then_admitted (List.replicate 10 0) 0 (List.replicate 10 0) 600
    (by decide) (by decide)

/-- Pointwise-implied filters give shorter results. -/
theorem filter_length_le_of_imp (l : List Int) (p q : Int → Bool)
    (h : ∀ a ∈ l, p a = true → q a = true) :
    (l.filter p).length ≤ (l.filter q).length := by
  rw [← List.countP_eq_length_filter, ← List.countP_eq_length_filter]
  exact List.countP_mono_left h

/-- Re-pruning at a later time collapses to pruning at the later time. -/
theorem prune_prune (tPrev t : Int) (acc : List Int) (hle : tPrev ≤ t) :
    (acc.filter (fun x => decide (tPrev - x < TIME_WINDOW))).filter
        (fun x => decide (t - x < TIME_WINDOW))
      = acc.filter (fun x => decide (t - x < TIME_WINDOW)) := by
  rw [List.filter_filter]
  refine List.filter_congr ?_
  intro a _
  by_cases h : t - a < TIME_WINDOW
  · have h2 : tPrev - a < TIME_WINDOW := by omega
    simp [h, h2]
  · simp [h]

/-- Invariant of a run of admission checks at non-decreasing times: when
the window is exactly the admitted timestamps still inside the last call
time's trailing window, every trailing window holds at most
`MESSAGE_LIMIT` admitted timestamps, and this is preserved to the end of
the run; the final stored window also respects the limit. -/
theorem runCalls_window_inv (ts : List Int) :
    ∀ (tPrev : Int) (w acc : List Int),
      List.Chain (fun a b => a ≤ b) tPrev ts →
      w = acc.filter (fun x => decide (tPrev - x < TIME_WINDOW)) →
      (∀ x ∈ acc, x ≤ tPrev) →
      (∀ T : Int, (acc.filter (inTrailing T)).length ≤ MESSAGE_LIMIT) →
      (∀ T : Int, (((runCalls w acc ts).2).filter (inTrailing T)).length ≤ MESSAGE_LIMIT)
        ∧ ((runCalls w acc ts).1).length ≤ MESSAGE_LIMIT := by
  induction ts with
  | nil =>
    intro tPrev w acc _ hw hacc hbound
    refine ⟨fun T => hbound T, ?_⟩
    have hEq : acc.filter (fun x => decide (tPrev - x < TIME_WINDOW))
        = acc.filter (inTrailing tPrev) := by
      refine List.filter_congr ?_
      intro a ha
      have hle : a ≤ tPrev := hacc a ha
      simp [inTrailing, hle]
    simpa [runCalls, hw, hEq] using hbound tPrev
  | cons t rest ih =>
    intro tPrev w acc hchain hw hacc hbound
    have hle : tPrev ≤ t := (List.chain_cons.mp hchain).1
    have hchain' : List.Chain (fun a b => a ≤ b) t rest := (List.chain_cons.mp hchain).2
    have hpr : pruneWindow t w = acc.filter (fun x => decide (t - x < TIME_WINDOW)) := by
      rw [hw]
      exact prune_prune tPrev t acc hle
    by_cases hfull : MESSAGE_LIMIT ≤ (pruneWindow t w).length
    · have hstep : runCalls w acc (t :: rest) = runCalls (pruneWindow t w) acc rest := by
        simp only [runCalls, tryAdmission]
        rw [if_pos hfull]
      rw [hstep]
      exact ih t (pruneWindow t w) acc hchain' hpr
        (fun x hx => le_trans (hacc x hx) hle) hbound
    · have hstep : runCalls w acc (t :: rest)
          = runCalls (pruneWindow t w ++ [t]) (acc ++ [t]) rest := by
        simp only [runCalls, tryAdmission]
        rw [if_neg hfull]
      rw [hstep]
      have ht : decide (t - t < TIME_WINDOW) = true := by
        rw [decide_eq_true_iff]
        have hTW : TIME_WINDOW = 600000 := rfl
        omega
      have hw' : pruneWindow t w ++ [t]
          = (acc ++ [t]).filter (fun x => decide (t - x < TIME_WINDOW)) := by
        rw [List.filter_append, hpr, List.filter_cons, if_pos ht, List.filter_nil]
      have hacc' : ∀ x ∈ acc ++ [t], x ≤ t := by
        intro x hx
        rcases List.mem_append.mp hx with h | h
        · exact le_trans (hacc x h) hle
        · have : x = t := by simpa using h
          omega
      have hbound' : ∀ T : Int, ((acc ++ [t]).filter (inTrailing T)).length ≤ MESSAGE_LIMIT := by
        intro T
        rw [List.filter_append, List.length_append]
        by_cases hT : inTrailing T t = true
        · have hTparts : T - t < TIME_WINDOW ∧ t ≤ T := by
            simpa [inTrailing] using hT
          have himp : ∀ a ∈ acc, inTrailing T a = true →
              (fun x => decide (t - x < TIME_WINDOW)) a = true := by
            intro a ha hin
            have h1 : a ≤ tPrev := hacc a ha
            have hin' : T - a < TIME_WINDOW ∧ a ≤ T := by
              simpa [inTrailing] using hin
            simp only [decide_eq_true_eq]
            omega
          have hmono := filter_length_le_of_imp acc (inTrailing T)
            (fun x => decide (t - x < TIME_WINDOW)) himp
          have hlt : (acc.filter (fun x => decide (t - x < TIME_WINDOW))).length
              < MESSAGE_LIMIT := by
            rw [← hpr]
            omega
          have hone : (([t].filter (inTrailing T))).length ≤ 1 :=
            List.length_filter_le _ _
          omega
        · have hF : inTrailing T t = false := by
            simpa using hT
          have hzero : ([t].filter (inTrailing T)) = [] := by
            simp [List.filter_cons, hF]
          rw [hzero]
          simpa using hbound T
      exact ih t (pruneWindow t w ++ [t]) (acc ++ [t]) hchain' hw' hacc' hbound'

/-- Claim C4: over any run of admission checks with non-decreasing call
times, the number of admitted timestamps inside any trailing window of
length `windowDuration` never exceeds the limit; the stored window's
length never exceeds the limit either, and pruning keeps only timestamps
within `windowDuration` of `now`. -/
theorem sliding_window_admission_bound (ts : List Int)
    (hts : List.Chain' (fun a b => a ≤ b) ts) :
    (∀ T : Int, (((runCalls [] [] ts).2).filter (inTrailing T)).length ≤ MESSAGE_LIMIT)
    ∧ ((runCalls [] [] ts).1).length ≤ MESSAGE_LIMIT
    ∧ (∀ (now : Int) (w : List Int), ∀ x ∈ pruneWindow now w, now - x < TIME_WINDOW) := by
  have main : (∀ T : Int,
        (((runCalls [] [] ts).2).filter (inTrailing T)).length ≤ MESSAGE_LIMIT)
      ∧ ((runCalls [] [] ts).1).length ≤ MESSAGE_LIMIT := by
    cases ts with
    | nil =>
      constructor
      · intro T
        simp [runCalls]
      · simp [runCalls]
    | cons t rest =>
      have hchain : List.Chain (fun a b => a ≤ b) t (t :: rest) :=
        List.chain_cons.mpr ⟨le_refl t, hts⟩
      exact runCalls_window_inv (t :: rest) t [] [] hchain rfl
        (fun x hx => absurd hx (List.not_mem_nil x))
        (fun T => by simp)
  refine ⟨main.1, main.2, ?_⟩
  intro now w x hx
  simp only [pruneWindow, List.mem_filter, decide_eq_true_eq] at hx
  exact hx.2

theorem sliding_window_admission_bound_witness :
    List.Chain' (fun a b => a ≤ b) ([0, 0, 0, 0, 0, 0, 0, 0, 0, 0, 0, 0] : List Int)
    ∧ (((runCalls [] [] ([0, 0, 0, 0, 0, 0, 0, 0, 0, 0, 0, 0] : List Int)).2).filter
        (inTrailing 0)).length ≤ MESSAGE_LIMIT :=
  ⟨by simp [List.chain'_cons],
    (sliding_window_admission_bound [0, 0, 0, 0, 0, 0, 0, 0, 0, 0, 0, 0]
      (by simp [List.chain'_cons])).1 0⟩

/-- Each handled recipient reports its own number, and the incremented
counter matches the recorded status: `sent`/`sent (retry)` for the success
counter, `failed` for the failure counter, `skipped` for the skip counter
— exactly one of the three. -/
theorem processRecipient_entry (rf : Bool) (n : String) (env : RecipientEnv) :
    (processRecipient rf n env).1.number = n
    ∧ ((processRecipient rf n env).2.1 = CounterKind.success
          ∧ isSentStatus (processRecipient rf n env).1 = true
          ∧ isFailedStatus (processRecipient rf n env).1 = false
          ∧ isSkippedStatus (processRecipient rf n env).1 = false
        ∨ (processRecipient rf n env).2.1 = CounterKind.fail
          ∧ isSentStatus (processRecipient rf n env).1 = false
          ∧ isFailedStatus (processRecipient rf n env).1 = true
          ∧ isSkippedStatus (processRecipient rf n env).1 = false
        ∨ (processRecipient rf n env).2.1 = CounterKind.skipped
          ∧ isSentStatus (processRecipient rf n env).1 = false
          ∧ isFailedStatus (processRecipient rf n env).1 = false
          ∧ isSkippedStatus (processRecipient rf n env).1 = true) := by
  rcases env with ⟨eo, s1, s2⟩
  cases eo <;> cases s1 <;> cases s2 <;> cases rf <;>
    simp [processRecipient, isSentStatus, isFailedStatus, isSkippedStatus]

/-- Accounting invariant of the bulk loop: the report grows by exactly one
entry per recipient in input order, the counters grow by one per recipient
in total, and when each counter equals the count of its statuses in the
report, this stays true to the end of the loop. -/
theorem bulkRun_accounting (rf : Bool) (recips : List (String × RecipientEnv)) :
    ∀ st : BulkState,
      ((bulkRun rf st recips).1.report.map Entry.number
          = st.report.map Entry.number ++ recips.map Prod.fst)
      ∧ ((bulkRun rf st recips).1.successCount + (bulkRun rf st recips).1.failCount
            + (bulkRun rf st recips).1.skippedCount
          = st.successCount + st.failCount + st.skippedCount + recips.length)
      ∧ (st.successCount = st.report.countP isSentStatus →
          st.failCount = st.report.countP isFailedStatus →
          st.skippedCount = st.report.countP isSkippedStatus →
          (bulkRun rf st recips).1.successCount
              = (bulkRun rf st recips).1.report.countP isSentStatus
            ∧ (bulkRun rf st recips).1.failCount
              = (bulkRun rf st recips).1.report.countP isFailedStatus
            ∧ (bulkRun rf st recips).1.skippedCount
              = (bulkRun rf st recips).1.report.countP isSkippedStatus) := by
  induction recips with
  | nil =>
    intro st
    exact ⟨by simp [bulkRun], by simp [bulkRun], fun h1 h2 h3 => ⟨h1, h2, h3⟩⟩
  | cons hd rest ih =>
    intro st
    rcases hd with ⟨n, env⟩
    obtain ⟨hnum, hcase⟩ := processRecipient_entry rf n env
    have key : (bulkRun rf st ((n, env) :: rest)).1
        = (bulkRun rf
            (applyCounter st (processRecipient rf n env).1 (processRecipient rf n env).2.1)
            rest).1 := rfl
    have hrep : (applyCounter st (processRecipient rf n env).1
          (processRecipient rf n env).2.1).report
        = st.report ++ [(processRecipient rf n env).1] := by
      rcases hcase with ⟨hc, _⟩ | ⟨hc, _⟩ | ⟨hc, _⟩ <;> simp [applyCounter, hc]
    have hs : (applyCounter st (processRecipient rf n env).1
          (processRecipient rf n env).2.1).successCount
        = st.successCount
          + (if isSentStatus (processRecipient rf n env).1 = true then 1 else 0) := by
      rcases hcase with ⟨hc, h4, h5, h6⟩ | ⟨hc, h4, h5, h6⟩ | ⟨hc, h4, h5, h6⟩ <;>
        simp [applyCounter, hc, h4]
    have hf : (applyCounter st (processRecipient rf n env).1
          (processRecipient rf n env).2.1).failCount
        = st.failCount
          + (if isFailedStatus (processRecipient rf n env).1 = true then 1 else 0) := by
      rcases hcase with ⟨hc, h4, h5, h6⟩ | ⟨hc, h4, h5, h6⟩ | ⟨hc, h4, h5, h6⟩ <;>
        simp [applyCounter, hc, h5]
    have hk : (applyCounter st (processRecipient rf n env).1
          (processRecipient rf n env).2.1).skippedCount
        = st.skippedCount
          + (if isSkippedStatus (processRecipient rf n env).1 = true then 1 else 0) := by
      rcases hcase with ⟨hc, h4, h5, h6⟩ | ⟨hc, h4, h5, h6⟩ | ⟨hc, h4, h5, h6⟩ <;>
        simp [applyCounter, hc, h6]
    have hone : (if isSentStatus (processRecipient rf n env).1 = true then (1:Nat) else 0)
        + (if isFailedStatus (processRecipient rf n env).1 = true then (1:Nat) else 0)
        + (if isSkippedStatus (processRecipient rf n env).1 = true then (1:Nat) else 0)
          = 1 := by
      rcases hcase with ⟨hc, h4, h5, h6⟩ | ⟨hc, h4, h5, h6⟩ | ⟨hc, h4, h5, h6⟩ <;>
        simp [h4, h5, h6]
    obtain ⟨ihmap, ihsum, ihinv⟩ := ih
      (applyCounter st (processRecipient rf n env).1 (processRecipient rf n env).2.1)
    refine ⟨?_, ?_, ?_⟩
    · rw [key, ihmap, hrep]
      simp [hnum]
    · rw [key, ihsum, hs, hf, hk]
      simp only [List.length_cons]
      omega
    · intro h1 h2 h3
      rw [key]
      refine ihinv ?_ ?_ ?_
      · rw [hs, hrep, List.countP_append, h1]
        simp [List.countP_cons]
      · rw [hf, hrep, List.countP_append, h2]
        simp [List.countP_cons]
      · rw [hk, hrep, List.countP_append, h3]
        simp [List.countP_cons]

/-- Claim C7: for a non-empty recipient list on a connected session, the
bulk response carries one report row per input recipient in input order,
each row is counted by exactly one of the three counters, and
`processed = sent + failed + skipped = total`. -/
theorem bulk_report_accounting (numbers : List (String × RecipientEnv)) (message : String)
    (rf : Bool) (hne : numbers ≠ []) (hmsg : message ≠ "") :
    ∃ resp : BulkResponse,
      sendBulkEndpoint true numbers message rf = Except.ok resp
      ∧ resp.report.map Entry.number = numbers.map Prod.fst
      ∧ resp.summary.total = numbers.length
      ∧ resp.summary.processed = resp.summary.sent + resp.summary.failed + resp.summary.skipped
      ∧ resp.summary.processed = resp.summary.total
      ∧ resp.summary.sent = resp.report.countP isSentStatus
      ∧ resp.summary.failed = resp.report.countP isFailedStatus
      ∧ resp.summary.skipped = resp.report.countP isSkippedStatus
      ∧ resp.report.countP isSentStatus + resp.report.countP isFailedStatus
          + resp.report.countP isSkippedStatus = resp.report.length := by
  obtain ⟨hmap, hsum, hinv⟩ := bulkRun_accounting rf numbers ⟨[], 0, 0, 0⟩
  obtain ⟨hinv1, hinv2, hinv3⟩ := hinv (by simp) (by simp) (by simp)
  have hok : sendBulkEndpoint true numbers message rf
      = Except.ok
        ⟨⟨numbers.length,
            (bulkRun rf ⟨[], 0, 0, 0⟩ numbers).1.successCount
              + (bulkRun rf ⟨[], 0, 0, 0⟩ numbers).1.failCount
              + (bulkRun rf ⟨[], 0, 0, 0⟩ numbers).1.skippedCount,
            (bulkRun rf ⟨[], 0, 0, 0⟩ numbers).1.successCount,
            (bulkRun rf ⟨[], 0, 0, 0⟩ numbers).1.failCount,
            (bulkRun rf ⟨[], 0, 0, 0⟩ numbers).1.skippedCount⟩,
          (bulkRun rf ⟨[], 0, 0, 0⟩ numbers).1.report⟩ := by
    have hlen : ¬ (numbers.length = 0 ∨ message = "") := by
      simp [List.length_eq_zero, hne, hmsg]
    simp only [sendBulkEndpoint, if_neg hlen]
    rw [if_neg (by simp)]
  have hsum' : (bulkRun rf ⟨[], 0, 0, 0⟩ numbers).1.successCount
      + (bulkRun rf ⟨[], 0, 0, 0⟩ numbers).1.failCount
      + (bulkRun rf ⟨[], 0, 0, 0⟩ numbers).1.skippedCount = numbers.length := by
    simpa using hsum
  have hlenmap : (bulkRun rf ⟨[], 0, 0, 0⟩ numbers).1.report.length = numbers.length := by
    have := congrArg List.length hmap
    simpa using this
  refine ⟨_, hok, ?_, rfl, rfl, hsum', hinv1, hinv2, hinv3, ?_⟩
  · simpa using hmap
  · show (bulkRun rf ⟨[], 0, 0, 0⟩ numbers).1.report.countP isSentStatus
        + (bulkRun rf ⟨[], 0, 0, 0⟩ numbers).1.report.countP isFailedStatus
        + (bulkRun rf ⟨[], 0, 0, 0⟩ numbers).1.report.countP isSkippedStatus
      = (bulkRun rf ⟨[], 0, 0, 0⟩ numbers).1.report.length
    omega

theorem bulk_report_accounting_witness :
    ([("1", ⟨ExistsOutcome.found, SendOutcome.delivered, SendOutcome.delivered⟩)]
        : List (String × RecipientEnv)) ≠ []
    ∧ ("hello" : String) ≠ ""
    ∧ ∃ resp : BulkResponse,
        sendBulkEndpoint true
            [("1", ⟨ExistsOutcome.found, SendOutcome.delivered, SendOutcome.delivered⟩)]
            "hello" false = Except.ok resp
        ∧ resp.report.map Entry.number
            = ([("1", ⟨ExistsOutcome.found, SendOutcome.delivered, SendOutcome.delivered⟩)]
                : List (String × RecipientEnv)).map Prod.fst
        ∧ resp.summary.total = 1
        ∧ resp.summary.processed
            = resp.summary.sent + resp.summary.failed + resp.summary.skipped
        ∧ resp.summary.processed = resp.summary.total
        ∧ resp.summary.sent = resp.report.countP isSentStatus
        ∧ resp.summary.failed = resp.report.countP isFailedStatus
        ∧ resp.summary.skipped = resp.report.countP isSkippedStatus
        ∧ resp.report.countP isSentStatus + resp.report.countP isFailedStatus
            + resp.report.countP isSkippedStatus = resp.report.length :=
  ⟨by simp, by simp,
    bulk_report_accounting
      [("1", ⟨ExistsOutcome.found, SendOutcome.delivered, SendOutcome.delivered⟩)]
      "hello" false (by simp) (by simp)⟩
